import Mathlib

set_option autoImplicit false

/-!
Verification development for the gollum proxy consumer and the
Base64Decode formatter.

The Go sources under consumer/proxy.go and format/base64decode.go are
embedded shallowly: pure configuration code becomes Lean functions, the
accept loop and the Consume control loop become a labeled small-step
transition system, and the external base64 codec of the Go standard
library is translated at the byte level (bytes are Nat values below 256,
byte shifts and masks are rendered as exact division / remainder
arithmetic).
-/

namespace Gollum

/-- Flags of the tgo tio.BufferedReaderFlags bitmask that Proxy.Configure
manipulates.  The Go code stores a bitmask; here each flag constant is a
named boolean field, and a bitwise or with a constant becomes setting
that field to true. -/
structure BufferedReaderFlags where
  bigEndian : Bool := false
  mle : Bool := false
  mle8 : Bool := false
  mle16 : Bool := false
  mle32 : Bool := false
  mle64 : Bool := false
  mleFixed : Bool := false
  everything : Bool := false
deriving Repr, DecidableEq

/-- Subset of a gollum core.PluginConfig read by consumer/Proxy.Configure.
A key set to none is absent, and the getters below return the given
default, mirroring conf.GetString and conf.GetInt. -/
structure ProxyPluginConfig where
  partitioner : Option String := none
  delimiter : Option String := none
  offset : Option Int := none
  size : Option Int := none
deriving Repr, DecidableEq

/-- Model of core.PluginConfig.GetString: the stored value, or the default
when the key is absent. -/
def getStringConf (v : Option String) (d : String) : String := v.getD d

/-- Model of core.PluginConfig.GetInt: the stored value, or the default
when the key is absent. -/
def getIntConf (v : Option Int) (d : Int) : Int := v.getD d

/-- Model of tgo ErrorStack.ErrorOrNil: no error when the stack is empty,
otherwise one single error aggregating every collected message. -/
def errorOrNil (errs : List String) : Option (List String) :=
  if errs = [] then none else some errs

/-- Model of tgo tstrings.Unescape: replaces the escape sequences for
newline, carriage return and tab by the corresponding characters. -/
def unescape (s : String) : String :=
  ((s.replace "\\n" "\n").replace "\\r" "\r").replace "\\t" "\t"

/-- Per-character ASCII lowercase map.  Go strings.ToLower applies the
Unicode simple lowercase mapping to every rune; this map agrees with it
on every ASCII string, and in particular fixes the six partitioner
keywords.  Where the full Unicode mapping matters, the configuration
embedding below abstracts the lowercase operation as a parameter
instead of relying on this map. -/
def goToLower (s : String) : String :=
  String.mk (s.data.map Char.toLower)

/-- Inner switch of Proxy.Configure on conf.GetInt Size 4 for the
binary, binary_le and binary_be partitioner kinds
(consumer/proxy.go, lines 119 to 130). -/
def binarySizeSwitch (size : Int) (flags : BufferedReaderFlags) (errs : List String) :
    BufferedReaderFlags × List String :=
  if size = 1 then ({ flags with mle8 := true }, errs)
  else if size = 2 then ({ flags with mle16 := true }, errs)
  else if size = 4 then ({ flags with mle32 := true }, errs)
  else if size = 8 then ({ flags with mle64 := true }, errs)
  else (flags, errs ++ ["Size only supports the value 1,2,4 and 8"])

/-- Switch of Proxy.Configure on the lowercased Partitioner value
(consumer/proxy.go, lines 113 to 144).  The binary_be arm sets the big
endian flag and falls through to the binary arm.  Returns the updated
flags, the possibly overwritten offset and the error stack. -/
def partitionerSwitch (part : String) (sizeOpt : Option Int) (offset : Int)
    (flags : BufferedReaderFlags) (errs : List String) :
    BufferedReaderFlags × Int × List String :=
  if part = "binary_be" then
    let r := binarySizeSwitch (getIntConf sizeOpt 4) { flags with bigEndian := true } errs
    (r.1, offset, r.2)
  else if part = "binary" ∨ part = "binary_le" then
    let r := binarySizeSwitch (getIntConf sizeOpt 4) flags errs
    (r.1, offset, r.2)
  else if part = "fixed" then
    ({ flags with mleFixed := true }, getIntConf sizeOpt 1, errs)
  else if part = "ascii" then
    ({ flags with mle := true }, offset, errs)
  else if part = "delimiter" then
    (flags, offset, errs)
  else
    (flags, offset, errs ++ ["Unknown partitioner: " ++ part])

/-- Fields of the Proxy consumer set by Configure. -/
structure ProxyState where
  protocol : String
  address : String
  delimiter : String
  offset : Int
  flags : BufferedReaderFlags
deriving Repr, DecidableEq

/-- Shallow embedding of consumer/Proxy.Configure (consumer/proxy.go,
lines 99 to 147).  parsedAddress stands for the pair (address, protocol)
returned by tnet.ParseAddress on the configured Address value, baseErr
for the error pushed by ConsumerBase.Configure, and lower for Go
strings.ToLower (the per-rune Unicode simple lowercase mapping, whose
case table is external to this repository).  The returned option is the
ErrorOrNil of the error stack. -/
def proxyConfigureWith (lower : String → String) (baseErr : Option String)
    (parsedAddress : String × String) (conf : ProxyPluginConfig) :
    ProxyState × Option (List String) :=
  let errs0 : List String := match baseErr with | some e => [e] | none => []
  let errs1 := if parsedAddress.2 = "udp" then errs0 ++ ["Proxy does not support UDP"] else errs0
  let delim := unescape (getStringConf conf.delimiter "\n")
  let offset0 := getIntConf conf.offset 0
  let flags0 : BufferedReaderFlags := { everything := true }
  let part := lower (getStringConf conf.partitioner "delimiter")
  let r := partitionerSwitch part conf.size offset0 flags0 errs1
  ({ protocol := parsedAddress.2, address := parsedAddress.1, delimiter := delim,
     offset := r.2.1, flags := r.1 }, errorOrNil r.2.2)

/-- Proxy.Configure with the lowercase operation instantiated at the
ASCII lowercase map, which agrees with strings.ToLower on every ASCII
string; the theorems below apply it only to literal ASCII keywords,
where it is exact. -/
def proxyConfigure (baseErr : Option String) (parsedAddress : String × String)
    (conf : ProxyPluginConfig) : ProxyState × Option (List String) :=
  proxyConfigureWith goToLower baseErr parsedAddress conf

/-- Shallow embedding of format/Base64Decode.Configure
(format/base64decode.go, lines 48 to 62).  The first component is true
when the RFC 4648 standard alphabet is selected; dict length is the Go
byte length of the configured dictionary string. -/
def base64DecodeConfigure (baseErr : Option String) (dictOpt : Option String) :
    Bool × Option (List String) :=
  let errs0 : List String := match baseErr with | some e => [e] | none => []
  let dict := getStringConf dictOpt ""
  if dict = "" then (true, errorOrNil errs0)
  else
    let errs1 := if dict.utf8ByteSize ≠ 64 then
        errs0 ++ ["Base64 dictionary must contain 64 characters."]
      else errs0
    (false, errorOrNil errs1)

/-- The three partitioner keywords that share the binary length-field
configuration arm. -/
def binaryKinds : List String := ["binary", "binary_le", "binary_be"]

/-- All partitioner keywords recognized by Proxy.Configure. -/
def knownPartitioners : List String :=
  ["binary_be", "binary", "binary_le", "fixed", "ascii", "delimiter"]

/-- Spec-side reading for the error-collection claim: the list of
violations that Configure is supposed to report, one entry per
independent violated rule, in source order. -/
def proxySpecViolations (baseErr : Option String) (protocol : String)
    (partLower : String) (sizeOpt : Option Int) : List String :=
  (match baseErr with | some e => [e] | none => [])
  ++ (if protocol = "udp" then ["Proxy does not support UDP"] else [])
  ++ (if partLower ∈ binaryKinds ∧ ¬ getIntConf sizeOpt 4 ∈ ([1, 2, 4, 8] : List Int)
      then ["Size only supports the value 1,2,4 and 8"] else [])
  ++ (if partLower ∉ knownPartitioners then ["Unknown partitioner: " ++ partLower] else [])

/-- Spec-side reading for the error-collection claim, Base64Decode part:
the violation list of Base64Decode.Configure. -/
def base64SpecViolations (baseErr : Option String) (dictOpt : Option String) : List String :=
  (match baseErr with | some e => [e] | none => [])
  ++ (if getStringConf dictOpt "" ≠ "" ∧ (getStringConf dictOpt "").utf8ByteSize ≠ 64
      then ["Base64 dictionary must contain 64 characters."] else [])

/-! Byte-level model of the Go standard library base64 codec used by
format/Base64Decode.  Bytes are Nat values below 256; Go byte shifts and
masks are rendered as exact division and remainder arithmetic, which
coincides with the Go expressions because every value stored in a decode
quantum is a 6-bit symbol index below 64. -/

/-- Byte codes of the RFC 4648 standard base64 alphabet
(base64.StdEncoding). -/
def stdAlphabet : List Nat :=
  "ABCDEFGHIJKLMNOPQRSTUVWXYZabcdefghijklmnopqrstuvwxyz0123456789+/".data.map Char.toNat

/-- Decode map built by base64.NewEncoding: the table is initialized to
255 and then written once per alphabet position in order, so the
position of the last occurrence of a byte wins; bytes absent from the
alphabet stay at 255. -/
def mkDecodeMap (alph : List Nat) (c : Nat) : Nat :=
  match (alph.enum.reverse).find? (fun p => p.2 == c) with
  | some p => p.1
  | none => 255

/-- Outcome of collecting one four-symbol quantum inside Go
(Encoding).decode: a corrupt-input error, a full quantum of four 6-bit
values with the unread remainder of the input, or an end-of-data quantum
cut short by padding (dlen symbols kept, trailing true when bytes follow
the padding). -/
inductive QuantumResult where
  | corrupt
  | complete (d0 d1 d2 d3 : Nat) (rest : List Nat)
  | finished (dlen : Nat) (d0 d1 d2 : Nat) (trailing : Bool)
deriving Repr, DecidableEq

/-- Inner j loop of Go (Encoding).decode collecting one quantum:
carriage return (13) and newline (10) bytes are skipped, an equals sign
(61) is only legal as padding at position two (where a second equals
sign must directly follow) or at position three, running out of input or
meeting a byte unknown to the decode map is a corrupt-input error. -/
def decodeQuantum (dmap : Nat → Nat) : List Nat → Nat → Nat → Nat → Nat → Nat → QuantumResult
  | [], _, _, _, _, _ => .corrupt
  | c :: rest, j, d0, d1, d2, d3 =>
    if c = 13 ∨ c = 10 then decodeQuantum dmap rest j d0 d1 d2 d3
    else if c = 61 then
      if j = 0 ∨ j = 1 then .corrupt
      else if j = 2 then
        match rest with
        | [] => .corrupt
        | c2 :: rest2 => if c2 = 61 then .finished 2 d0 d1 d2 (!rest2.isEmpty) else .corrupt
      else .finished 3 d0 d1 d2 (!rest.isEmpty)
    else
      let v := dmap c
      if v = 255 then .corrupt
      else if j = 0 then decodeQuantum dmap rest 1 v d1 d2 d3
      else if j = 1 then decodeQuantum dmap rest 2 d0 v d2 d3
      else if j = 2 then decodeQuantum dmap rest 3 d0 d1 v d3
      else .complete d0 d1 d2 v rest

/-- A full quantum leaves strictly fewer input bytes than it was given. -/
theorem decodeQuantum_complete_length (dmap : Nat → Nat) :
    ∀ (src : List Nat) (j d0 d1 d2 d3 a b c e : Nat) (rest2 : List Nat),
      decodeQuantum dmap src j d0 d1 d2 d3 = .complete a b c e rest2 →
      rest2.length < src.length
  | [], _, _, _, _, _, _, _, _, _, _ => by simp [decodeQuantum]
  | x :: rest, j, d0, d1, d2, d3, a, b, c, e, rest2 => by
    intro h
    unfold decodeQuantum at h
    by_cases h1310 : x = 13 ∨ x = 10
    · rw [if_pos h1310] at h
      exact Nat.lt_trans (decodeQuantum_complete_length dmap rest _ _ _ _ _ _ _ _ _ _ h)
        (by simp)
    rw [if_neg h1310] at h
    by_cases h61 : x = 61
    · rw [if_pos h61] at h
      by_cases hj01 : j = 0 ∨ j = 1
      · rw [if_pos hj01] at h; exact absurd h (by simp)
      rw [if_neg hj01] at h
      by_cases hj2 : j = 2
      · rw [if_pos hj2] at h
        cases rest with
        | nil => simp at h
        | cons c2 rest3 => rcases eq_or_ne c2 61 with hc2 | hc2 <;> simp [hc2] at h
      · rw [if_neg hj2] at h; exact absurd h (by simp)
    rw [if_neg h61] at h
    simp only at h
    by_cases hv : dmap x = 255
    · rw [if_pos hv] at h; exact absurd h (by simp)
    rw [if_neg hv] at h
    by_cases hj0 : j = 0
    · rw [if_pos hj0] at h
      exact Nat.lt_trans (decodeQuantum_complete_length dmap rest _ _ _ _ _ _ _ _ _ _ h)
        (by simp)
    rw [if_neg hj0] at h
    by_cases hj1 : j = 1
    · rw [if_pos hj1] at h
      exact Nat.lt_trans (decodeQuantum_complete_length dmap rest _ _ _ _ _ _ _ _ _ _ h)
        (by simp)
    rw [if_neg hj1] at h
    by_cases hj2 : j = 2
    · rw [if_pos hj2] at h
      exact Nat.lt_trans (decodeQuantum_complete_length dmap rest _ _ _ _ _ _ _ _ _ _ h)
        (by simp)
    · rw [if_neg hj2] at h
      obtain ⟨_, _, _, _, hr⟩ := QuantumResult.complete.inj h
      subst hr
      simp

/-- Outer loop of Go (Encoding).decode: while input remains, collect one
quantum and pack it into up to three output bytes; the byte count
written for a padded final quantum is dlen minus one.  On a
corrupt-input error the bytes of earlier complete quanta stay written
and the error flag is set. -/
def decodeLoop (dmap : Nat → Nat) (src : List Nat) : List Nat × Bool :=
  match src with
  | [] => ([], false)
  | c :: rest =>
    match hq : decodeQuantum dmap (c :: rest) 0 0 0 0 0 with
    | .corrupt => ([], true)
    | .finished dlen d0 d1 d2 g =>
      if dlen = 2 then ([d0 * 4 + d1 / 16], g)
      else ([d0 * 4 + d1 / 16, (d1 % 16) * 16 + d2 / 4], g)
    | .complete d0 d1 d2 d3 rest2 =>
      let r := decodeLoop dmap rest2
      ((d0 * 4 + d1 / 16) :: ((d1 % 16) * 16 + d2 / 4) :: ((d2 % 4) * 64 + d3) :: r.1, r.2)
termination_by src.length
decreasing_by
  exact decodeQuantum_complete_length _ _ _ _ _ _ _ _ _ _ _ _ hq

/-- Go base64 (Encoding).Decode for the encoding with the given
alphabet: the bytes written and whether an error was reported. -/
def b64decodeGo (alph : List Nat) (src : List Nat) : List Nat × Bool :=
  decodeLoop (mkDecodeMap alph) src

/-- A gollum core.Message as seen by a formatter: the payload bytes and
the routing stream identifier. -/
structure Message where
  data : List Nat
  streamID : Nat
deriving Repr, DecidableEq

/-- Shallow embedding of format/Base64Decode.Format
(format/base64decode.go, lines 65 to 72): decode the payload, log the
error when one occurred, and return the written prefix together with the
unchanged stream identifier.  The second component is the error log the
call appends. -/
def base64DecodeFormat (alph : List Nat) (msg : Message) : (List Nat × Nat) × List String :=
  let r := b64decodeGo alph msg.data
  ((r.1, msg.streamID), if r.2 then ["illegal base64 data"] else [])

/-- Go base64 (Encoding).Encode with standard padding on byte lists:
three input bytes yield four alphabet symbols, a trailing single or
double byte yields a final quantum padded with equals signs (byte 61). -/
def b64encode (alph : List Nat) : List Nat → List Nat
  | [] => []
  | [b0] => [alph.getD (b0 / 4) 0, alph.getD ((b0 % 4) * 16) 0, 61, 61]
  | [b0, b1] => [alph.getD (b0 / 4) 0, alph.getD ((b0 % 4) * 16 + b1 / 16) 0,
      alph.getD ((b1 % 16) * 4) 0, 61]
  | b0 :: b1 :: b2 :: rest =>
      alph.getD (b0 / 4) 0 :: alph.getD ((b0 % 4) * 16 + b1 / 16) 0 ::
      alph.getD ((b1 % 16) * 4 + b2 / 64) 0 :: alph.getD (b2 % 64) 0 :: b64encode alph rest

/-- Every symbol of the standard alphabet decodes back to its position,
and no symbol collides with the carriage return, newline or padding
bytes treated specially by the decoder. -/
theorem std_char_facts : ∀ k : Nat, k < 64 →
    mkDecodeMap stdAlphabet (stdAlphabet.getD k 0) = k ∧
    stdAlphabet.getD k 0 ≠ 13 ∧ stdAlphabet.getD k 0 ≠ 10 ∧ stdAlphabet.getD k 0 ≠ 61 := by
  decide

/-- Reading one standard-alphabet symbol advances the quantum by one
position, storing the symbol index. -/
theorem decodeQuantum_alpha (k : Nat) (hk : k < 64) (rest : List Nat) (j d0 d1 d2 d3 : Nat) :
    decodeQuantum (mkDecodeMap stdAlphabet) (stdAlphabet.getD k 0 :: rest) j d0 d1 d2 d3 =
      if j = 0 then decodeQuantum (mkDecodeMap stdAlphabet) rest 1 k d1 d2 d3
      else if j = 1 then decodeQuantum (mkDecodeMap stdAlphabet) rest 2 d0 k d2 d3
      else if j = 2 then decodeQuantum (mkDecodeMap stdAlphabet) rest 3 d0 d1 k d3
      else QuantumResult.complete d0 d1 d2 k rest := by
  obtain ⟨hmap, h13, h10, h61⟩ := std_char_facts k hk
  have h255 : k ≠ 255 := by omega
  simp only [decodeQuantum, h13, h10, h61, hmap, h255, or_self, if_false, ite_false, if_neg,
    not_false_iff]

/-- Four standard-alphabet symbols form one complete quantum. -/
theorem decodeQuantum_chunk (k0 k1 k2 k3 : Nat) (h0 : k0 < 64) (h1 : k1 < 64)
    (h2 : k2 < 64) (h3 : k3 < 64) (rest : List Nat) :
    decodeQuantum (mkDecodeMap stdAlphabet)
      (stdAlphabet.getD k0 0 :: stdAlphabet.getD k1 0 :: stdAlphabet.getD k2 0 ::
        stdAlphabet.getD k3 0 :: rest) 0 0 0 0 0 =
      QuantumResult.complete k0 k1 k2 k3 rest := by
  rw [decodeQuantum_alpha k0 h0, if_pos rfl]
  rw [decodeQuantum_alpha k1 h1, if_neg (by decide), if_pos rfl]
  rw [decodeQuantum_alpha k2 h2, if_neg (by decide), if_neg (by decide), if_pos rfl]
  rw [decodeQuantum_alpha k3 h3, if_neg (by decide), if_neg (by decide), if_neg (by decide)]

/-- Two symbols followed by double padding form a final quantum of
length two. -/
theorem decodeQuantum_pad2 (k0 k1 : Nat) (h0 : k0 < 64) (h1 : k1 < 64) :
    decodeQuantum (mkDecodeMap stdAlphabet)
      [stdAlphabet.getD k0 0, stdAlphabet.getD k1 0, 61, 61] 0 0 0 0 0 =
      QuantumResult.finished 2 k0 k1 0 false := by
  rw [decodeQuantum_alpha k0 h0, if_pos rfl]
  rw [decodeQuantum_alpha k1 h1, if_neg (by decide), if_pos rfl]
  simp [decodeQuantum]

/-- Three symbols followed by single padding form a final quantum of
length three. -/
theorem decodeQuantum_pad1 (k0 k1 k2 : Nat) (h0 : k0 < 64) (h1 : k1 < 64) (h2 : k2 < 64) :
    decodeQuantum (mkDecodeMap stdAlphabet)
      [stdAlphabet.getD k0 0, stdAlphabet.getD k1 0, stdAlphabet.getD k2 0, 61] 0 0 0 0 0 =
      QuantumResult.finished 3 k0 k1 k2 false := by
  rw [decodeQuantum_alpha k0 h0, if_pos rfl]
  rw [decodeQuantum_alpha k1 h1, if_neg (by decide), if_pos rfl]
  rw [decodeQuantum_alpha k2 h2, if_neg (by decide), if_neg (by decide), if_pos rfl]
  simp [decodeQuantum]

theorem decodeLoop_nil (dmap : Nat → Nat) : decodeLoop dmap [] = ([], false) := by
  rw [decodeLoop]

theorem decodeLoop_corrupt (dmap : Nat → Nat) (c : Nat) (rest : List Nat)
    (h : decodeQuantum dmap (c :: rest) 0 0 0 0 0 = .corrupt) :
    decodeLoop dmap (c :: rest) = ([], true) := by
  rw [decodeLoop]
  split <;> rename_i heq <;> rw [h] at heq
  · simp at heq
  · simp at heq

theorem decodeLoop_complete (dmap : Nat → Nat) (c : Nat) (rest : List Nat)
    (d0 d1 d2 d3 : Nat) (rest2 : List Nat)
    (h : decodeQuantum dmap (c :: rest) 0 0 0 0 0 = .complete d0 d1 d2 d3 rest2) :
    decodeLoop dmap (c :: rest) =
      ((d0 * 4 + d1 / 16) :: ((d1 % 16) * 16 + d2 / 4) :: ((d2 % 4) * 64 + d3) ::
        (decodeLoop dmap rest2).1, (decodeLoop dmap rest2).2) := by
  rw [decodeLoop]
  split <;> rename_i heq <;> rw [h] at heq
  · simp at heq
  · simp at heq
  · obtain ⟨e0, e1, e2, e3, er⟩ := QuantumResult.complete.inj heq.symm
    subst e0; subst e1; subst e2; subst e3; subst er
    rfl

theorem decodeLoop_fin2 (dmap : Nat → Nat) (c : Nat) (rest : List Nat)
    (d0 d1 d2 : Nat) (g : Bool)
    (h : decodeQuantum dmap (c :: rest) 0 0 0 0 0 = .finished 2 d0 d1 d2 g) :
    decodeLoop dmap (c :: rest) = ([d0 * 4 + d1 / 16], g) := by
  rw [decodeLoop]
  split <;> rename_i heq <;> rw [h] at heq
  · simp at heq
  · obtain ⟨e0, e1, e2, e3, er⟩ := QuantumResult.finished.inj heq.symm
    subst e0; subst e1; subst e2; subst e3; subst er
    rfl
  · simp at heq

theorem decodeLoop_fin3 (dmap : Nat → Nat) (c : Nat) (rest : List Nat)
    (d0 d1 d2 : Nat) (g : Bool)
    (h : decodeQuantum dmap (c :: rest) 0 0 0 0 0 = .finished 3 d0 d1 d2 g) :
    decodeLoop dmap (c :: rest) = ([d0 * 4 + d1 / 16, (d1 % 16) * 16 + d2 / 4], g) := by
  rw [decodeLoop]
  split <;> rename_i heq <;> rw [h] at heq
  · simp at heq
  · obtain ⟨e0, e1, e2, e3, er⟩ := QuantumResult.finished.inj heq.symm
    subst e0; subst e1; subst e2; subst e3; subst er
    rfl
  · simp at heq

/-- Encoding with the standard alphabet and decoding again restores the
byte sequence exactly, with no error reported. -/
theorem b64_roundTrip : ∀ (data : List Nat), (∀ b ∈ data, b < 256) →
    decodeLoop (mkDecodeMap stdAlphabet) (b64encode stdAlphabet data) = (data, false)
  | [], _ => decodeLoop_nil _
  | [b0], h => by
    have hb0 : b0 < 256 := h b0 (by simp)
    have hq := decodeQuantum_pad2 (b0 / 4) (b0 % 4 * 16) (by omega) (by omega)
    have e : b64encode stdAlphabet [b0] =
        stdAlphabet.getD (b0 / 4) 0 :: [stdAlphabet.getD (b0 % 4 * 16) 0, 61, 61] := rfl
    rw [e, decodeLoop_fin2 _ _ _ _ _ _ _ hq]
    simp only [Prod.mk.injEq, List.cons.injEq, and_true]
    omega
  | [b0, b1], h => by
    have hb0 : b0 < 256 := h b0 (by simp)
    have hb1 : b1 < 256 := h b1 (by simp)
    have hq := decodeQuantum_pad1 (b0 / 4) (b0 % 4 * 16 + b1 / 16) (b1 % 16 * 4)
      (by omega) (by omega) (by omega)
    have e : b64encode stdAlphabet [b0, b1] =
        stdAlphabet.getD (b0 / 4) 0 :: [stdAlphabet.getD (b0 % 4 * 16 + b1 / 16) 0,
          stdAlphabet.getD (b1 % 16 * 4) 0, 61] := rfl
    rw [e, decodeLoop_fin3 _ _ _ _ _ _ _ hq]
    simp only [Prod.mk.injEq, List.cons.injEq, and_true]
    omega
  | b0 :: b1 :: b2 :: rest, h => by
    have hb0 : b0 < 256 := h b0 (by simp)
    have hb1 : b1 < 256 := h b1 (by simp)
    have hb2 : b2 < 256 := h b2 (by simp)
    have ih := b64_roundTrip rest (fun b hb => h b (by simp [hb]))
    have hq := decodeQuantum_chunk (b0 / 4) (b0 % 4 * 16 + b1 / 16) (b1 % 16 * 4 + b2 / 64)
      (b2 % 64) (by omega) (by omega) (by omega) (by omega) (b64encode stdAlphabet rest)
    have e : b64encode stdAlphabet (b0 :: b1 :: b2 :: rest) =
        stdAlphabet.getD (b0 / 4) 0 :: stdAlphabet.getD (b0 % 4 * 16 + b1 / 16) 0 ::
        stdAlphabet.getD (b1 % 16 * 4 + b2 / 64) 0 :: stdAlphabet.getD (b2 % 64) 0 ::
        b64encode stdAlphabet rest := rfl
    rw [e, decodeLoop_complete _ _ _ _ _ _ _ _ hq, ih]
    simp only [Prod.mk.injEq, List.cons.injEq, and_true]
    omega

/-- Decoding a validly encoded whole-quantum prefix followed by any tail
yields the decoded prefix followed by whatever the tail decodes to, with
the error status of the tail. -/
theorem b64_decode_append : ∀ (data : List Nat), (∀ b ∈ data, b < 256) →
    data.length % 3 = 0 → ∀ tail : List Nat,
    decodeLoop (mkDecodeMap stdAlphabet) (b64encode stdAlphabet data ++ tail) =
      (data ++ (decodeLoop (mkDecodeMap stdAlphabet) tail).1,
       (decodeLoop (mkDecodeMap stdAlphabet) tail).2)
  | [], _, _, tail => by simp [b64encode]
  | [b0], _, hlen, tail => by simp at hlen
  | [b0, b1], _, hlen, tail => by simp at hlen
  | b0 :: b1 :: b2 :: rest, h, hlen, tail => by
    have hb0 : b0 < 256 := h b0 (by simp)
    have hb1 : b1 < 256 := h b1 (by simp)
    have hb2 : b2 < 256 := h b2 (by simp)
    have hlen3 : rest.length % 3 = 0 := by
      simp only [List.length_cons] at hlen
      omega
    have ih := b64_decode_append rest (fun b hb => h b (by simp [hb])) hlen3 tail
    have hq := decodeQuantum_chunk (b0 / 4) (b0 % 4 * 16 + b1 / 16) (b1 % 16 * 4 + b2 / 64)
      (b2 % 64) (by omega) (by omega) (by omega) (by omega)
      (b64encode stdAlphabet rest ++ tail)
    have e : b64encode stdAlphabet (b0 :: b1 :: b2 :: rest) ++ tail =
        stdAlphabet.getD (b0 / 4) 0 :: stdAlphabet.getD (b0 % 4 * 16 + b1 / 16) 0 ::
        stdAlphabet.getD (b1 % 16 * 4 + b2 / 64) 0 :: stdAlphabet.getD (b2 % 64) 0 ::
        (b64encode stdAlphabet rest ++ tail) := rfl
    rw [e, decodeLoop_complete _ _ _ _ _ _ _ _ hq, ih]
    simp only [Prod.mk.injEq, List.cons.injEq, List.cons_append, and_true]
    omega

/-- A byte unknown to the decode map aborts decoding at once with a
corrupt-input error and no output. -/
theorem decodeLoop_invalid_byte (c : Nat) (hc13 : c ≠ 13) (hc10 : c ≠ 10) (hc61 : c ≠ 61)
    (hmap : mkDecodeMap stdAlphabet c = 255) :
    decodeLoop (mkDecodeMap stdAlphabet) [c] = ([], true) := by
  apply decodeLoop_corrupt
  simp [decodeQuantum, hc13, hc10, hc61, hmap]

/-! Small-step model of Proxy.accept (consumer/proxy.go, lines 149 to
166) and Proxy.Consume (lines 169 to 184).  The consumer task and the
acceptor goroutine run concurrently, so their program points are two
fields of one state and each Go statement is one labeled transition.
Behavior of gollum core that is only called from this file is modelled
from the spec: ControlLoop blocks until a shutdown request and makes the
consumer inactive before returning, WaitOnFuse blocks exactly while the
fuse is burned, IsActive reads the active flag, and AddMainWorker and
WorkerDone adjust the workers wait group.  The fuse and the shutdown
request are toggled by environment transitions, and accept outcomes for
an open listener are drawn from a pending oracle list; accepting on a
closed listener fails immediately with a closed-connection error. -/

/-- Program points of the Consume control task. -/
inductive ConsumePC where
  | entry
  | controlLoop
  | closing
  | returned
deriving Repr, DecidableEq

/-- Program points of the acceptor goroutine running Proxy.accept. -/
inductive AcceptorPC where
  | notStarted
  | addWorker
  | checkActive
  | waitFuse
  | acceptCall
  | finish
  | done
deriving Repr, DecidableEq

/-- Outcome the network delivers for one accept call on an open
listener: a new client connection or an input-output error. -/
inductive AcceptOutcome where
  | conn (id : Nat)
  | ioErr (msg : String)
deriving Repr, DecidableEq

/-- Combined state of the consumer task, the acceptor goroutine and
their environment. -/
structure SysState where
  bindResult : Option String
  cpc : ConsumePC
  apc : AcceptorPC
  listenerOpen : Bool
  active : Bool
  stopRequested : Bool
  fuseBurned : Bool
  pending : List AcceptOutcome
  handlers : List Nat
  workers : Nat
  log : List String
deriving Repr, DecidableEq

/-- Transition labels: one per Go statement modelled, plus environment
transitions for the fuse authority and the shutdown requester. -/
inductive Label where
  | bindOk
  | bindErr (msg : String)
  | ctrlShutdown
  | closeListener
  | addWorkerStep
  | loopCheck (active : Bool)
  | waitDone
  | acceptConn (id : Nat)
  | acceptErr (msg : String)
  | workerDone
  | envStop
  | envBurn
  | envClear
deriving Repr, DecidableEq

/-- Environment labels: not executed by the consumer or the acceptor. -/
def Label.isEnv : Label → Bool
  | .envStop | .envBurn | .envClear => true
  | _ => false

/-- Labels executed by the acceptor goroutine. -/
def Label.isAcceptorTask : Label → Bool
  | .addWorkerStep | .loopCheck _ | .waitDone | .acceptConn _ | .acceptErr _
  | .workerDone => true
  | _ => false

/-- Labels of an accept invocation returning. -/
def Label.isAccept : Label → Bool
  | .acceptConn _ | .acceptErr _ => true
  | _ => false

/-- Error text Go net returns for an accept on a closed listener. -/
def closedConnMsg : String := "use of closed network connection"

/-- Error log entry of the accept loop. -/
def acceptLogMsg (m : String) : String := "Proxy listen failed: " ++ m

/-- Error log entry of a failed bind in Consume. -/
def bindLogMsg (m : String) : String := "Proxy connection error: " ++ m

/-- Labeled transition relation of the combined system.  Consume steps:
bindOk starts the acceptor goroutine and enters ControlLoop, bindErr
logs and returns at once, ctrlShutdown is ControlLoop receiving the stop
request (making the consumer inactive) and returning, closeListener is
the deferred listener close after which Consume returns.  Acceptor
steps follow the accept loop statement by statement; the accept call is
only enabled when a pending outcome exists or the listener is closed,
so a blocked accept has no transition.  waitDone is WaitOnFuse
returning, enabled only while the fuse is clear. -/
inductive Step : SysState → Label → SysState → Prop where
  | bindOk (s : SysState) :
      s.cpc = .entry → s.bindResult = none → s.apc = .notStarted →
      Step s .bindOk { s with cpc := .controlLoop, listenerOpen := true, apc := .addWorker }
  | bindErr (s : SysState) (m : String) :
      s.cpc = .entry → s.bindResult = some m →
      Step s (.bindErr m) { s with cpc := .returned, log := s.log ++ [bindLogMsg m] }
  | ctrlShutdown (s : SysState) :
      s.cpc = .controlLoop → s.stopRequested = true →
      Step s .ctrlShutdown { s with cpc := .closing, active := false }
  | closeListener (s : SysState) :
      s.cpc = .closing →
      Step s .closeListener { s with cpc := .returned, listenerOpen := false }
  | addWorkerStep (s : SysState) :
      s.apc = .addWorker →
      Step s .addWorkerStep { s with apc := .checkActive, workers := s.workers + 1 }
  | loopCheckActive (s : SysState) :
      s.apc = .checkActive → s.active = true →
      Step s (.loopCheck true) { s with apc := .waitFuse }
  | loopCheckInactive (s : SysState) :
      s.apc = .checkActive → s.active = false →
      Step s (.loopCheck false) { s with apc := .finish }
  | waitDone (s : SysState) :
      s.apc = .waitFuse → s.fuseBurned = false →
      Step s .waitDone { s with apc := .acceptCall }
  | acceptConn (s : SysState) (id : Nat) (rest : List AcceptOutcome) :
      s.apc = .acceptCall → s.listenerOpen = true → s.pending = .conn id :: rest →
      Step s (.acceptConn id)
        { s with apc := .checkActive, pending := rest, handlers := s.handlers ++ [id] }
  | acceptIOErrActive (s : SysState) (m : String) (rest : List AcceptOutcome) :
      s.apc = .acceptCall → s.listenerOpen = true → s.pending = .ioErr m :: rest →
      s.active = true →
      Step s (.acceptErr m)
        { s with apc := .finish, pending := rest, log := s.log ++ [acceptLogMsg m] }
  | acceptIOErrInactive (s : SysState) (m : String) (rest : List AcceptOutcome) :
      s.apc = .acceptCall → s.listenerOpen = true → s.pending = .ioErr m :: rest →
      s.active = false →
      Step s (.acceptErr m) { s with apc := .finish, pending := rest }
  | acceptClosedActive (s : SysState) :
      s.apc = .acceptCall → s.listenerOpen = false → s.active = true →
      Step s (.acceptErr closedConnMsg)
        { s with apc := .finish, log := s.log ++ [acceptLogMsg closedConnMsg] }
  | acceptClosedInactive (s : SysState) :
      s.apc = .acceptCall → s.listenerOpen = false → s.active = false →
      Step s (.acceptErr closedConnMsg) { s with apc := .finish }
  | workerDone (s : SysState) :
      s.apc = .finish →
      Step s .workerDone { s with apc := .done, workers := s.workers - 1 }
  | envStop (s : SysState) : Step s .envStop { s with stopRequested := true }
  | envBurn (s : SysState) : Step s .envBurn { s with fuseBurned := true }
  | envClear (s : SysState) : Step s .envClear { s with fuseBurned := false }

/-- Finite runs of the system, recording the labels taken. -/
inductive Steps : SysState → List Label → SysState → Prop where
  | refl (s : SysState) : Steps s [] s
  | head {s t u : SysState} {l : Label} {ls : List Label} :
      Step s l t → Steps t ls u → Steps s (l :: ls) u

/-- State at the start of Consume: bindResult is the outcome net.Listen
will deliver, pending the oracle of accept outcomes. -/
def initState (bindResult : Option String) (pending : List AcceptOutcome) : SysState :=
  { bindResult := bindResult, cpc := .entry, apc := .notStarted, listenerOpen := false,
    active := true, stopRequested := false, fuseBurned := false, pending := pending,
    handlers := [], workers := 0, log := [] }

/-- An invariant preserved by every transition holds along every run. -/
theorem stepsInvariant (Inv : SysState → Prop)
    (pres : ∀ s t (l : Label), Inv s → Step s l t → Inv t) :
    ∀ (s : SysState) (ls : List Label) (t : SysState), Steps s ls t → Inv s → Inv t := by
  intro s ls t h
  induction h with
  | refl s => exact id
  | head hst _ ih => exact fun hs => ih (pres _ _ _ hs hst)

/-- Invariant of runs whose bind fails: the acceptor never starts, no
worker registers, the control loop is never entered, and the bind error
is logged exactly when Consume has returned. -/
def bindFailInv (m : String) (s : SysState) : Prop :=
  s.bindResult = some m ∧ s.apc = .notStarted ∧ s.listenerOpen = false ∧
  s.workers = 0 ∧ s.handlers = [] ∧ (s.cpc = .entry ∨ s.cpc = .returned) ∧
  (s.cpc = .entry → s.log = []) ∧ (s.cpc = .returned → s.log = [bindLogMsg m])

theorem bindFailInv_step (m : String) (s t : SysState) (l : Label)
    (hs : bindFailInv m s) (h : Step s l t) : bindFailInv m t := by
  obtain ⟨h1, h2, h3, h4, h5, h6, h7, h8⟩ := hs
  cases h <;> simp_all [bindFailInv]

/-- Invariant of runs whose bind succeeds: once the control task is
closing or has returned, the consumer is inactive, and once it has
returned the listener is closed. -/
def consumeReturnInv (s : SysState) : Prop :=
  s.bindResult = none ∧ (s.cpc = .closing → s.active = false) ∧
  (s.cpc = .returned → s.active = false ∧ s.listenerOpen = false)

theorem consumeReturnInv_step (s t : SysState) (l : Label)
    (hs : consumeReturnInv s) (h : Step s l t) : consumeReturnInv t := by
  obtain ⟨h1, h2, h3⟩ := hs
  cases h <;> simp_all [consumeReturnInv]

/-- Run of length seven demonstrating that Consume can return while the
acceptor goroutine is still at its (unblocked) accept call. -/
def c2RunLabels : List Label :=
  [.bindOk, .addWorkerStep, .loopCheck true, .waitDone, .envStop, .ctrlShutdown,
   .closeListener]

/-- Final state of the run of c2RunLabels. -/
def c2FinalState : SysState :=
  { bindResult := none, cpc := .returned, apc := .acceptCall, listenerOpen := false,
    active := false, stopRequested := true, fuseBurned := false, pending := [],
    handlers := [], workers := 1, log := [] }

theorem c2Run : Steps (initState none []) c2RunLabels c2FinalState := by
  refine Steps.head (Step.bindOk _ rfl rfl rfl) ?_
  refine Steps.head (Step.addWorkerStep _ rfl) ?_
  refine Steps.head (Step.loopCheckActive _ rfl rfl) ?_
  refine Steps.head (Step.waitDone _ rfl rfl) ?_
  refine Steps.head (Step.envStop _) ?_
  refine Steps.head (Step.ctrlShutdown _ rfl rfl) ?_
  refine Steps.head (Step.closeListener _ rfl) ?_
  exact Steps.refl _

/-! Claim theorems. -/

/-- C1: an accept invocation happens only at the acceptCall point; that
point is entered only by a completed wait-on-fuse, which requires a
clear fuse and leaves it clear; while the fuse is burned a waiting
acceptor has no transition of its own (it is blocked, not polling), and
as soon as the fuse is clear the wait transition is enabled; while the
acceptor sits at the accept call only its own transitions move it, and
the fuse stays clear under every transition other than an environment
burn.  Hence in every loop iteration the wait precedes the accept call,
and the accept is never invoked while the fuse is burned unless the
external fuse authority burns it between the wait returning and the
accept starting. -/
theorem c1_wait_before_accept :
    (∀ (s t : SysState) (l : Label), Step s l t → l.isAccept = true →
      s.apc = .acceptCall) ∧
    (∀ (s t : SysState) (l : Label), Step s l t → t.apc = .acceptCall →
      s.apc ≠ .acceptCall → l = .waitDone ∧ s.fuseBurned = false ∧ t.fuseBurned = false) ∧
    (∀ s : SysState, s.apc = .waitFuse → s.fuseBurned = true →
      ∀ (l : Label) (t : SysState), l.isAcceptorTask = true → ¬ Step s l t) ∧
    (∀ s : SysState, s.apc = .waitFuse → s.fuseBurned = false →
      Step s .waitDone { s with apc := .acceptCall }) ∧
    (∀ (s t : SysState) (l : Label), Step s l t → s.apc = .acceptCall →
      l.isAcceptorTask = false → t.apc = .acceptCall) ∧
    (∀ (s t : SysState) (l : Label), Step s l t → s.fuseBurned = false →
      l ≠ .envBurn → t.fuseBurned = false) := by
  refine ⟨?_, ?_, ?_, ?_, ?_, ?_⟩
  · intro s t l h hl
    cases h <;> simp_all [Label.isAccept]
  · intro s t l h ht hs
    cases h <;> simp_all
  · intro s hpc hfuse l t hl hstep
    cases hstep <;> simp_all [Label.isAcceptorTask]
  · intro s hpc hfuse
    exact Step.waitDone s hpc hfuse
  · intro s t l h hpc hl
    cases h <;> simp_all [Label.isAcceptorTask]
  · intro s t l h hfuse hl
    cases h <;> simp_all

/-- Witness for C1 at a concrete waiting state with a clear fuse. -/
def c1WitnessState : SysState :=
  { bindResult := none, cpc := .controlLoop, apc := .waitFuse, listenerOpen := false,
    active := true, stopRequested := false, fuseBurned := false, pending := [],
    handlers := [], workers := 1, log := [] }

theorem c1_wait_before_accept_witness :
    Step c1WitnessState .waitDone { c1WitnessState with apc := .acceptCall } ∧
    Step { c1WitnessState with apc := .acceptCall } (.acceptErr closedConnMsg)
      { c1WitnessState with
        apc := .finish,
        log := c1WitnessState.log ++ [acceptLogMsg closedConnMsg] } ∧
    AcceptorPC.waitFuse ≠ AcceptorPC.acceptCall := by
  refine ⟨c1_wait_before_accept.2.2.2.1 c1WitnessState rfl rfl, ?_, by decide⟩
  exact Step.acceptClosedActive _ rfl rfl rfl

/-- C2 counterexample: a successful-bind run in which Consume has
returned (and the listener is closed) while the acceptor goroutine has
not finished: it still sits at its accept call and its worker is still
registered in the wait group.  This refutes the claim that Consume
never returns with the Acceptor still running. -/
theorem c2_counterexample_acceptor_still_running :
    Steps (initState none []) c2RunLabels c2FinalState ∧
    c2FinalState.cpc = .returned ∧ c2FinalState.listenerOpen = false ∧
    c2FinalState.apc ≠ .done ∧ c2FinalState.apc ≠ .notStarted ∧
    c2FinalState.workers = 1 :=
  ⟨c2Run, rfl, rfl, by decide, by decide, rfl⟩

/-- C2 amended: after a successful bind, whenever Consume has returned
the listener is closed and the consumer is inactive, and an acceptor
still blocked at its accept call is immediately unblocked with a
closed-listener error (which, the consumer being inactive, it does not
log); Consume itself does not wait for the acceptor task, whose
termination is tracked through the workers wait group. -/
theorem c2_amended_listener_closed_on_return (pending : List AcceptOutcome)
    (ls : List Label) (s : SysState)
    (h : Steps (initState none pending) ls s) (hret : s.cpc = .returned) :
    s.listenerOpen = false ∧ s.active = false ∧
    (s.apc = .acceptCall →
      Step s (.acceptErr closedConnMsg) { s with apc := .finish }) := by
  have hinv := stepsInvariant consumeReturnInv
    (fun s t l hs hst => consumeReturnInv_step s t l hs hst) _ _ _ h
    (by simp [consumeReturnInv, initState])
  obtain ⟨-, -, h3⟩ := hinv
  obtain ⟨hact, hopen⟩ := h3 hret
  exact ⟨hopen, hact, fun hapc => Step.acceptClosedInactive s hapc hopen hact⟩

theorem c2_amended_witness :
    c2FinalState.listenerOpen = false ∧ c2FinalState.active = false ∧
    (c2FinalState.apc = .acceptCall →
      Step c2FinalState (.acceptErr closedConnMsg)
        { c2FinalState with apc := .finish }) :=
  c2_amended_listener_closed_on_return [] c2RunLabels c2FinalState c2Run rfl

/-- C7: when the accept call returns an error, the acceptor logs the
error exactly when the consumer is still active (an error while
inactive is suppressed), moves to its exit point without touching the
set of already spawned connection handlers, and from the exit points no
further accept happens. -/
theorem c7_accept_error_handling :
    (∀ (s t : SysState) (m : String), Step s (.acceptErr m) t →
      t.apc = .finish ∧ t.handlers = s.handlers ∧ t.workers = s.workers ∧
      (s.active = true → t.log = s.log ++ [acceptLogMsg m] ∧ t.log ≠ s.log) ∧
      (s.active = false → t.log = s.log)) ∧
    (∀ (s t : SysState) (l : Label), Step s l t → s.apc = .finish ∨ s.apc = .done →
      (t.apc = .finish ∨ t.apc = .done) ∧ l.isAccept = false) := by
  constructor
  · intro s t m h
    generalize hl : Label.acceptErr m = l at h
    cases h <;> simp_all
  · intro s t l h hfin
    cases h <;> simp_all [Label.isAccept]

/-- Witness for C7: a concrete accept error while inactive is
suppressed and stops the loop. -/
def c7WitnessState : SysState :=
  { bindResult := none, cpc := .closing, apc := .acceptCall, listenerOpen := true,
    active := false, stopRequested := true, fuseBurned := false,
    pending := [.ioErr "boom"], handlers := [7], workers := 1, log := [] }

theorem c7_accept_error_handling_witness :
    ({ c7WitnessState with apc := .finish, pending := ([] : List AcceptOutcome) }).apc
        = AcceptorPC.finish ∧
    ({ c7WitnessState with apc := .finish, pending := ([] : List AcceptOutcome) }).handlers
        = c7WitnessState.handlers ∧
    ({ c7WitnessState with apc := .finish, pending := ([] : List AcceptOutcome) }).log
        = c7WitnessState.log := by
  have hstep : Step c7WitnessState (.acceptErr "boom")
      { c7WitnessState with apc := .finish, pending := ([] : List AcceptOutcome) } :=
    Step.acceptIOErrInactive _ "boom" [] rfl rfl rfl rfl
  have h := c7_accept_error_handling.1 c7WitnessState
    { c7WitnessState with apc := .finish, pending := ([] : List AcceptOutcome) } "boom" hstep
  exact ⟨h.1, h.2.1, h.2.2.2.2 rfl⟩

/-- C8: when the bind fails, along every run the acceptor is never
started, no worker is registered, no handler is spawned, the listener
is never open, the control loop point is never reached, and when
Consume has returned its log consists of the logged bind error. -/
theorem c8_bind_failure (m : String) (pending : List AcceptOutcome) (ls : List Label)
    (s : SysState) (h : Steps (initState (some m) pending) ls s) :
    s.apc = .notStarted ∧ s.workers = 0 ∧ s.handlers = [] ∧ s.listenerOpen = false ∧
    s.cpc ≠ .controlLoop ∧ (s.cpc = .returned → s.log = [bindLogMsg m]) := by
  have hinv := stepsInvariant (bindFailInv m)
    (fun s t l hs hst => bindFailInv_step m s t l hs hst) _ _ _ h
    (by simp [bindFailInv, initState])
  obtain ⟨-, h2, h3, h4, h5, h6, -, h8⟩ := hinv
  refine ⟨h2, h4, h5, h3, ?_, h8⟩
  rcases h6 with h6 | h6 <;> simp [h6]

/-- Final state of the one-step bind-failure run used as C8 witness. -/
def c8WitnessState : SysState :=
  { initState (some "no such host") [] with
    cpc := ConsumePC.returned,
    log := [bindLogMsg "no such host"] }

theorem c8_bind_failure_witness :
    c8WitnessState.apc = .notStarted ∧ c8WitnessState.workers = 0 ∧
    c8WitnessState.log = [bindLogMsg "no such host"] := by
  have hs : Steps (initState (some "no such host") []) [.bindErr "no such host"]
      c8WitnessState :=
    Steps.head (Step.bindErr _ _ rfl rfl) (Steps.refl _)
  have h := c8_bind_failure "no such host" [] [.bindErr "no such host"] _ hs
  exact ⟨h.1, h.2.1, h.2.2.2.2.2 rfl⟩

/-- The aggregated error and the underlying message list agree. -/
theorem errorOrNil_getD (l : List String) : (errorOrNil l).getD [] = l := by
  unfold errorOrNil
  split <;> simp_all

/-- An unknown-partitioner message never coincides with the UDP
rejection message. -/
theorem unknown_ne_udp (p : String) :
    "Unknown partitioner: " ++ p ≠ "Proxy does not support UDP" := by
  intro h
  have h2 := congrArg (fun s => s.data.head?) h
  simp [String.data_append] at h2

/-- Refinement of the proxy error stack, for any lowercase map:
Configure returns exactly the spec violation list, aggregated by
ErrorOrNil. -/
theorem proxyConfigureWith_violations (lower : String → String) (baseErr : Option String)
    (parsed : String × String) (conf : ProxyPluginConfig) :
    (proxyConfigureWith lower baseErr parsed conf).2 =
      errorOrNil (proxySpecViolations baseErr parsed.2
        (lower (getStringConf conf.partitioner "delimiter")) conf.size) := by
  simp only [proxyConfigureWith, proxySpecViolations, partitionerSwitch, binarySizeSwitch,
    binaryKinds, knownPartitioners]
  split_ifs <;>
    simp_all [List.append_assoc, List.mem_cons]

/-- Refinement of the proxy error stack at the ASCII lowercase map. -/
theorem proxyConfigure_violations (baseErr : Option String) (parsed : String × String)
    (conf : ProxyPluginConfig) :
    (proxyConfigure baseErr parsed conf).2 =
      errorOrNil (proxySpecViolations baseErr parsed.2
        (goToLower (getStringConf conf.partitioner "delimiter")) conf.size) :=
  proxyConfigureWith_violations goToLower baseErr parsed conf

/-- Refinement of the Base64Decode error stack: Configure returns
exactly the spec violation list, aggregated by ErrorOrNil. -/
theorem base64Configure_violations (baseErr : Option String) (dictOpt : Option String) :
    (base64DecodeConfigure baseErr dictOpt).2 =
      errorOrNil (base64SpecViolations baseErr dictOpt) := by
  simp only [base64DecodeConfigure, base64SpecViolations]
  split_ifs <;> simp_all

/-- Modelled from the spec: the fixed partitioner itself lives in the
tgo buffered reader, which is not part of this repository.  Per the
spec every frame is exactly size bytes and trailing shorter data stays
unconsumed: the buffer splits into maximal full frames of n bytes plus
the remainder. -/
def fixedSplit (n : Nat) (buf : List Nat) : List (List Nat) × List Nat :=
  if hn : 0 < n ∧ n ≤ buf.length then
    have : buf.length - n < buf.length := by omega
    let r := fixedSplit n (List.drop n buf)
    (List.take n buf :: r.1, r.2)
  else ([], buf)
termination_by buf.length
decreasing_by
  simp only [List.length_drop]
  omega

/-- Every frame the fixed partitioner emits has exactly n bytes. -/
theorem fixedSplit_frames (n : Nat) (buf : List Nat) :
    ∀ frame ∈ (fixedSplit n buf).1, frame.length = n := by
  rw [fixedSplit]
  split
  · rename_i h
    intro frame hf
    simp only [List.mem_cons] at hf
    rcases hf with hf | hf
    · subst hf
      simp [List.length_take]
      omega
    · exact fixedSplit_frames n (List.drop n buf) frame hf
  · intro frame hf
    simp at hf
termination_by buf.length
decreasing_by
  simp only [List.length_drop]
  omega

/-! Claim theorems for the configuration layer. -/

/-- C3: for the binary, binary_le and binary_be partitioner kinds,
Configure accepts a Size value exactly when it is 1, 2, 4 or 8
(defaulting to 4 when absent), maps each accepted value to the matching
fixed-width length-field flag, sets big-endian decoding exactly for
binary_be, and for any other Size pushes the size configuration error
into the returned error. -/
theorem c3_binary_size_validation (p : String) (parsed : String × String)
    (conf : ProxyPluginConfig) (hp : p ∈ binaryKinds) (hpart : conf.partitioner = some p) :
    ((proxyConfigure none parsed conf).1.flags.mle8 = true ↔ getIntConf conf.size 4 = 1) ∧
    ((proxyConfigure none parsed conf).1.flags.mle16 = true ↔ getIntConf conf.size 4 = 2) ∧
    ((proxyConfigure none parsed conf).1.flags.mle32 = true ↔ getIntConf conf.size 4 = 4) ∧
    ((proxyConfigure none parsed conf).1.flags.mle64 = true ↔ getIntConf conf.size 4 = 8) ∧
    ((proxyConfigure none parsed conf).1.flags.bigEndian = true ↔ p = "binary_be") ∧
    ("Size only supports the value 1,2,4 and 8" ∈ (proxyConfigure none parsed conf).2.getD []
      ↔ getIntConf conf.size 4 ∉ ([1, 2, 4, 8] : List Int)) ∧
    (conf.size = none → (proxyConfigure none parsed conf).1.flags.mle32 = true) := by
  simp only [binaryKinds, List.mem_cons, List.not_mem_nil, or_false] at hp
  have hlow1 : goToLower "binary" = "binary" := by decide
  have hlow2 : goToLower "binary_le" = "binary_le" := by decide
  have hlow3 : goToLower "binary_be" = "binary_be" := by decide
  rcases hp with h | h | h <;> subst h <;>
    simp only [proxyConfigure, proxyConfigureWith, hpart, getStringConf, Option.getD_some,
      hlow1, hlow2, hlow3] <;>
    simp only [partitionerSwitch, binarySizeSwitch] <;>
    simp <;>
    split_ifs <;>
    simp_all [errorOrNil_getD, errorOrNil] <;>
    (intro h0; simp_all [getIntConf])

/-- C4: for the fixed partitioner kind Configure stores the configured
Size (default 1) in the offset field, whatever Offset was configured,
and sets the fixed-length flag; the spec-modelled fixed partitioner then
emits only frames of exactly that many bytes. -/
theorem c4_fixed_size_into_offset (parsed : String × String) (conf : ProxyPluginConfig)
    (hpart : conf.partitioner = some "fixed") :
    ((proxyConfigure none parsed conf).1.offset = getIntConf conf.size 1) ∧
    ((proxyConfigure none parsed conf).1.flags.mleFixed = true) ∧
    (∀ o : Int, (proxyConfigure none parsed { conf with offset := some o }).1.offset =
      getIntConf conf.size 1) ∧
    (∀ buf : List Nat, ∀ frame ∈
        (fixedSplit (proxyConfigure none parsed conf).1.offset.toNat buf).1,
      frame.length = (proxyConfigure none parsed conf).1.offset.toNat) := by
  have hlow : goToLower "fixed" = "fixed" := by decide
  refine ⟨?_, ?_, ?_, ?_⟩
  · simp [proxyConfigure, proxyConfigureWith, hpart, getStringConf, hlow, partitionerSwitch]
  · simp [proxyConfigure, proxyConfigureWith, hpart, getStringConf, hlow, partitionerSwitch]
  · intro o
    simp [proxyConfigure, proxyConfigureWith, hpart, getStringConf, hlow, partitionerSwitch]
  · exact fun buf frame hf => fixedSplit_frames _ buf frame hf

/-- C5: Configure collects every violation (base error, unsupported
UDP, invalid binary Size, unknown partitioner, and in Base64Decode a
custom dictionary whose byte length is not 64) into one error stack and
reports them together in one returned error, returning no error exactly
when no violation occurred. -/
theorem c5_errors_collected :
    (∀ (baseErr : Option String) (parsed : String × String) (conf : ProxyPluginConfig),
      (proxyConfigure baseErr parsed conf).2 =
        errorOrNil (proxySpecViolations baseErr parsed.2
          (goToLower (getStringConf conf.partitioner "delimiter")) conf.size)) ∧
    (∀ (baseErr : Option String) (dictOpt : Option String),
      (base64DecodeConfigure baseErr dictOpt).2 =
        errorOrNil (base64SpecViolations baseErr dictOpt)) ∧
    (∀ errs : List String, errorOrNil errs = none ↔ errs = []) := by
  refine ⟨proxyConfigure_violations, base64Configure_violations, ?_⟩
  intro errs
  unfold errorOrNil
  split <;> simp_all

theorem c5_errors_collected_witness :
    (proxyConfigure (some "base failed") ("gollum.socket", "udp")
        { partitioner := some "binary", size := some 3 }).2 =
      some ["base failed", "Proxy does not support UDP",
        "Size only supports the value 1,2,4 and 8"] ∧
    (base64DecodeConfigure none (some "tooShort")).2 =
      some ["Base64 dictionary must contain 64 characters."] := by
  constructor
  · rw [c5_errors_collected.1 (some "base failed") ("gollum.socket", "udp")
      { partitioner := some "binary", size := some 3 }]
    decide
  · rw [c5_errors_collected.2.1 none (some "tooShort")]
    decide

/-- C6: when the configured address parses to the UDP protocol,
Configure records the UDP rejection and returns an error; for any other
protocol the UDP rejection is never recorded. -/
theorem c6_udp_rejected (parsed : String × String) (conf : ProxyPluginConfig) :
    (parsed.2 = "udp" →
      "Proxy does not support UDP" ∈ (proxyConfigure none parsed conf).2.getD [] ∧
      (proxyConfigure none parsed conf).2 ≠ none) ∧
    (parsed.2 ≠ "udp" →
      "Proxy does not support UDP" ∉ (proxyConfigure none parsed conf).2.getD []) := by
  have hv := proxyConfigure_violations none parsed conf
  rw [hv, errorOrNil_getD]
  constructor
  · intro hudp
    have hmem : "Proxy does not support UDP" ∈ proxySpecViolations none parsed.2
        (goToLower (getStringConf conf.partitioner "delimiter")) conf.size := by
      simp [proxySpecViolations, hudp]
    refine ⟨hmem, ?_⟩
    unfold errorOrNil
    split <;> simp_all
  · intro hproto hmem
    simp only [proxySpecViolations, if_neg hproto, List.nil_append,
      List.mem_append] at hmem
    rcases hmem with hmem | hmem
    · split_ifs at hmem <;> simp_all
    · split_ifs at hmem <;>
        simp only [List.mem_singleton, List.not_mem_nil] at hmem
      exact unknown_ne_udp _ hmem.symm

/-- C9: the Partitioner value is matched case-insensitively.  The
lowercase operation is Go strings.ToLower, the per-rune Unicode simple
lowercase mapping, whose case table is external data; it is abstracted
here as any map lower that fixes the six lowercase ASCII partitioner
keywords, a property strings.ToLower has.  For every such map - and
hence for the real one - any Partitioner value whose lowercase form is
a known keyword configures exactly as the lowercase form does, and any
value whose lowercase form is unknown yields the unknown-partitioner
configuration error naming the lowercase form. -/
theorem c9_partitioner_case_insensitive (lower : String → String)
    (hfix : ∀ k ∈ knownPartitioners, lower k = k) (baseErr : Option String)
    (parsed : String × String) (conf : ProxyPluginConfig) (s : String)
    (hpart : conf.partitioner = some s) :
    (lower s ∈ knownPartitioners →
      proxyConfigureWith lower baseErr parsed conf =
        proxyConfigureWith lower baseErr parsed
          { conf with partitioner := some (lower s) }) ∧
    (lower s ∉ knownPartitioners →
      ("Unknown partitioner: " ++ lower s) ∈
        (proxyConfigureWith lower baseErr parsed conf).2.getD []) := by
  constructor
  · intro hmem
    have hfix2 : lower (lower s) = lower s := hfix _ hmem
    simp [proxyConfigureWith, hpart, getStringConf, hfix2]
  · intro hmem
    rw [proxyConfigureWith_violations, errorOrNil_getD]
    simp only [proxySpecViolations, hpart, getStringConf, Option.getD_some]
    simp [hmem]

theorem c9_partitioner_case_insensitive_witness :
    proxyConfigureWith goToLower none (":5880", "tcp")
        { partitioner := some "Binary_BE" } =
      proxyConfigureWith goToLower none (":5880", "tcp")
        { partitioner := some "binary_be" } ∧
    ("Unknown partitioner: bogus") ∈
      (proxyConfigureWith goToLower none (":5880", "tcp")
        { partitioner := some "Bogus" }).2.getD [] := by
  constructor
  · have h := (c9_partitioner_case_insensitive goToLower (by decide) none (":5880", "tcp")
      { partitioner := some "Binary_BE" } "Binary_BE" rfl).1 (by decide)
    have e : goToLower "Binary_BE" = "binary_be" := by decide
    rw [e] at h
    exact h
  · have h := (c9_partitioner_case_insensitive goToLower (by decide) none (":5880", "tcp")
      { partitioner := some "Bogus" } "Bogus" rfl).2 (by decide)
    have e : goToLower "Bogus" = "bogus" := by decide
    rw [e] at h
    exact h

theorem c3_binary_size_validation_witness :
    (proxyConfigure none (":5880", "tcp")
        { partitioner := some "binary_be", size := some 8 }).1.flags.mle64 = true ∧
    (proxyConfigure none (":5880", "tcp")
        { partitioner := some "binary_be", size := some 8 }).1.flags.bigEndian = true ∧
    ("Size only supports the value 1,2,4 and 8" ∈
      (proxyConfigure none (":5880", "tcp")
        { partitioner := some "binary", size := some 3 }).2.getD []) := by
  refine ⟨?_, ?_, ?_⟩
  · exact (c3_binary_size_validation "binary_be" (":5880", "tcp")
      { partitioner := some "binary_be", size := some 8 } (by decide) rfl).2.2.2.1.mpr
      (by decide)
  · exact (c3_binary_size_validation "binary_be" (":5880", "tcp")
      { partitioner := some "binary_be", size := some 8 } (by decide) rfl).2.2.2.2.1.mpr
      rfl
  · exact (c3_binary_size_validation "binary" (":5880", "tcp")
      { partitioner := some "binary", size := some 3 } (by decide) rfl).2.2.2.2.2.1.mpr
      (by decide)

theorem c4_fixed_size_into_offset_witness :
    (proxyConfigure none (":5880", "tcp")
        { partitioner := some "fixed", offset := some 99, size := some 16 }).1.offset
      = 16 ∧
    (proxyConfigure none (":5880", "tcp")
        { partitioner := some "fixed", offset := some 99, size := some 16 }).1.flags.mleFixed
      = true := by
  have h := c4_fixed_size_into_offset (":5880", "tcp")
    { partitioner := some "fixed", offset := some 99, size := some 16 } rfl
  exact ⟨h.1, h.2.1⟩

theorem c6_udp_rejected_witness :
    "Proxy does not support UDP" ∈
      (proxyConfigure none ("localhost:5880", "udp") {}).2.getD [] ∧
    "Proxy does not support UDP" ∉
      (proxyConfigure none ("localhost:5880", "tcp") {}).2.getD [] := by
  constructor
  · exact ((c6_udp_rejected ("localhost:5880", "udp") {}).1 rfl).1
  · exact (c6_udp_rejected ("localhost:5880", "tcp") {}).2 (by decide)

/-- C10: Base64Decode.Format always returns the stream identifier of
the input message unchanged; it always returns exactly the bytes the
decoder wrote, so on a partial decode failure the successfully decoded
prefix is returned (and the error logged) rather than the call failing
or returning the raw input; and every fully valid base64 payload
decodes to the complete original bytes. -/
theorem c10_base64_format :
    (∀ (alph : List Nat) (msg : Message),
      (base64DecodeFormat alph msg).1.2 = msg.streamID) ∧
    (∀ (alph : List Nat) (msg : Message),
      (base64DecodeFormat alph msg).1.1 = (b64decodeGo alph msg.data).1) ∧
    (∀ data : List Nat, (∀ b ∈ data, b < 256) →
      b64decodeGo stdAlphabet (b64encode stdAlphabet data) = (data, false)) ∧
    (∀ (data : List Nat) (c sid : Nat), (∀ b ∈ data, b < 256) → data.length % 3 = 0 →
      mkDecodeMap stdAlphabet c = 255 → c ≠ 13 → c ≠ 10 → c ≠ 61 →
      base64DecodeFormat stdAlphabet ⟨b64encode stdAlphabet data ++ [c], sid⟩ =
        ((data, sid), ["illegal base64 data"])) := by
  refine ⟨?_, ?_, ?_, ?_⟩
  · intro alph msg
    rfl
  · intro alph msg
    rfl
  · intro data h
    exact b64_roundTrip data h
  · intro data c sid h hlen hmap h13 h10 h61
    have htail := decodeLoop_invalid_byte c h13 h10 h61 hmap
    have happ := b64_decode_append data h hlen [c]
    rw [htail] at happ
    simp only [base64DecodeFormat, b64decodeGo]
    simp [happ]

theorem c10_base64_format_witness :
    base64DecodeFormat stdAlphabet ⟨b64encode stdAlphabet [104, 105], 7⟩ =
      (([104, 105], 7), []) ∧
    b64decodeGo stdAlphabet (b64encode stdAlphabet [1, 2, 3]) = ([1, 2, 3], false) ∧
    base64DecodeFormat stdAlphabet ⟨b64encode stdAlphabet [1, 2, 3] ++ [35], 9⟩ =
      (([1, 2, 3], 9), ["illegal base64 data"]) := by
  refine ⟨?_, ?_, ?_⟩
  · have h3 := c10_base64_format.2.2.1 [104, 105] (by decide)
    simp [base64DecodeFormat, h3]
  · exact c10_base64_format.2.2.1 [1, 2, 3] (by decide)
  · exact c10_base64_format.2.2.2 [1, 2, 3] 35 9 (by decide) (by decide) (by decide)
      (by decide) (by decide) (by decide)

end Gollum
